import Mathlib

/-!
Shallow embedding of `src/http_context.rs` (mitm_proxy): the `HttpContext`
request-fingerprinting core.  Pure Rust functions are translated into
computable Lean definitions; `HashMap<String,String>` is modelled as an
association list with replace-on-insert semantics, `HeaderMap` as an
association list from (lower-cased) header names to raw byte values, and
machine integers (`u32`) as `Nat` with explicit `< 2^32` bounds where the
Rust code can fail on overflow.  All string handling is over Unicode
code points (`Char`); Rust's `to_lowercase` is modelled by the ASCII
lowercasing of `Char.toLower`, which agrees with Rust on all ASCII input
(every string literal appearing in the source is ASCII).
-/

namespace MitmProxy

/-! ### Generic string helpers (models of Rust `str` methods) -/

/-- Model of Rust `str::to_lowercase` (ASCII lowercasing). -/
def lowerStr (s : String) : String := String.mk (s.data.map Char.toLower)

/-- Split on a (non-empty) separator, leftmost non-overlapping occurrences
first — the semantics of Rust `str::split` with a string or character
pattern.  The fuel argument (always called with more fuel than characters)
only makes the recursion structural. -/
def splitOnGo (sep : List Char) : Nat → List Char → List Char → List (List Char)
  | _, [], acc => [acc.reverse]
  | 0, cs, acc => [acc.reverse ++ cs]
  | fuel + 1, c :: rest, acc =>
    if sep.isPrefixOf (c :: rest) then
      acc.reverse :: splitOnGo sep fuel ((c :: rest).drop sep.length) []
    else splitOnGo sep fuel rest (c :: acc)

/-- Model of Rust `str::split` (collected into a list; the result is never
empty). -/
def mySplitOn (s sep : String) : List String :=
  if sep.data.isEmpty then [s]
  else (splitOnGo sep.data (s.data.length + 1) s.data []).map String.mk

/-- Model of Rust `str::trim`: drop leading and trailing whitespace.  (Rust
trims Unicode whitespace; on the visible-ASCII-plus-tab strings produced
by header decoding only spaces and tabs can occur, where the two agree.) -/
def myTrim (s : String) : String :=
  String.mk (((s.data.dropWhile Char.isWhitespace).reverse.dropWhile
    Char.isWhitespace).reverse)

/-- Predicate `listContainsSub needle hay = true` iff `needle` occurs as a contiguous
sublist of `hay` (model of Rust `str::contains` with a string pattern). -/
def listContainsSub (needle : List Char) : List Char → Bool
  | [] => needle.isEmpty
  | c :: rest => needle.isPrefixOf (c :: rest) || listContainsSub needle rest

/-- Model of Rust `str::contains` with a string pattern. -/
def containsSub (s sub : String) : Bool := listContainsSub sub.data s.data

/-- Model of Rust `str::starts_with`. -/
def strStartsWith (s p : String) : Bool := p.data.isPrefixOf s.data

/-- Model of Rust `str::ends_with`. -/
def strEndsWith (s p : String) : Bool := p.data.isSuffixOf s.data

/-- Model of Rust `str::split_once(c)`: split at the first occurrence of
the character `c`, returning the parts before and after it. -/
def splitOnceCharAux (c : Char) : List Char → Option (List Char × List Char)
  | [] => none
  | x :: rest =>
    if x == c then some ([], rest)
    else (splitOnceCharAux c rest).map (fun p => (x :: p.1, p.2))

/-- Model of Rust `str::split_once(c)` on `String`. -/
def splitOnceChar (s : String) (c : Char) : Option (String × String) :=
  (splitOnceCharAux c s.data).map (fun p => (String.mk p.1, String.mk p.2))

/-- Numeric value of a non-empty list of ASCII digits. -/
def digitsToNat (ds : List Char) : Nat :=
  ds.foldl (fun a c => a * 10 + (c.toNat - 48)) 0

/-- Model of Rust `str::parse::<u32>()`: an optional leading `+`, then one
or more ASCII digits, with the value bounded by `u32::MAX`. -/
def parseU32 (s : String) : Option Nat :=
  let cs := match s.data with
    | '+' :: t => t
    | cs => cs
  if cs.isEmpty then none
  else if cs.all Char.isDigit then
    let v := digitsToNat cs
    if v < 4294967296 then some v else none
  else none

/-- Approximate model of Rust `str::parse::<f32>()`: optional sign, decimal
digits and an optional fractional part.  (Rust additionally accepts
exponents and `inf`/`NaN` spellings, and rounds to `f32`; no claim in this
development depends on the value of a parsed duration, only on whether the
surrounding structure is produced.) -/
def parseF32 (s : String) : Option Float :=
  let cs := s.data
  let (neg, cs₁) := match cs with
    | '-' :: t => (true, t)
    | '+' :: t => (false, t)
    | cs => (false, cs)
  let intPart := cs₁.takeWhile Char.isDigit
  let rest := cs₁.drop intPart.length
  let build := fun (frac : List Char) =>
    let mag : Float :=
      Float.ofNat (digitsToNat intPart) +
        Float.ofNat (digitsToNat frac) / Float.ofNat (10 ^ frac.length)
    some (if neg then -mag else mag)
  match rest with
  | [] => if intPart.isEmpty then none else build []
  | '.' :: fracRest =>
    let fd := fracRest.takeWhile Char.isDigit
    if (fracRest.drop fd.length).isEmpty && !(intPart.isEmpty && fd.isEmpty) then
      build fd
    else none
  | _ => none

/-- Hex rendering of a natural number (used only for display-style fields). -/
def natToHex (n : Nat) : String := String.mk (Nat.toDigits 16 n)

/-! ### Data model (structs and enums of `http_context.rs`) -/

/-- Rust `enum DataFormat`. -/
inductive DataFormat
  | Json
  | Xml
  | Text
  | Binary
deriving DecidableEq, Repr

/-- Rust `enum ContentCategory`. -/
inductive ContentCategory
  | Video
  | Audio
  | Image
  | Document
  | Stylesheet
  | Script
  | Html
  | Data (format : DataFormat)
  | StreamingManifest
  | MediaSegment
  | Other
deriving DecidableEq, Repr

/-- Rust `struct MediaType`. -/
structure MediaType where
  format : String
  codec : Option String
  container : Option String
deriving DecidableEq, Repr

/-- Rust `struct SegmentInfo` (the `duration` field is an `f32`). -/
structure SegmentInfo where
  index : Option Nat
  sequence_number : Option Nat
  is_chunk : Bool
  duration : Option Float

/-- Rust `struct Resolution`. -/
structure Resolution where
  width : Option Nat
  height : Option Nat
  label : String
deriving DecidableEq, Repr

/-- Rust `struct QualityInfo`. -/
structure QualityInfo where
  resolution : Option Resolution
  bitrate : Option String
  quality_label : Option String
deriving DecidableEq, Repr

/-- Rust `struct ContentInfo`. -/
structure ContentInfo where
  content_category : ContentCategory
  media_type : Option MediaType
  file_extension : Option String
  is_streaming : Bool
  is_init_segment : Bool
  segment_info : Option SegmentInfo
  quality_info : QualityInfo

/-- Rust `struct RequestHeaders`. -/
structure RequestHeaders where
  content_type : Option String
  etag : Option String
  last_modified : Option String
  byte_range : Option String
  accept : Option String
  accept_language : Option String
  user_agent : Option String
  authorization : Option String
  content_range : Option String
  host : Option String
  referer : Option String
  cache_control : Option String
  if_none_match : Option String
  if_modified_since : Option String
deriving DecidableEq, Repr

/-- A `RequestHeaders` value with every field absent. -/
def noHeaders : RequestHeaders :=
  ⟨none, none, none, none, none, none, none, none, none, none, none, none,
    none, none⟩

/-- Rust `struct AuthInfo`. -/
structure AuthInfo where
  auth_type : String
  auth_hash : String
  requires_auth : Bool
deriving DecidableEq, Repr

/-- Rust `struct NetworkInfo`. -/
structure NetworkInfo where
  client_ip : String
  port : Nat
  is_local : Bool
  protocol : Option String
deriving DecidableEq, Repr

/-- Model of `std::net::IpAddr`: four octets for v4, eight 16-bit segments
for v6. -/
inductive IpAddrM
  | v4 (a b c d : Nat)
  | v6 (segs : List Nat)
deriving DecidableEq, Repr

/-- Model of `IpAddr::is_loopback`: `127.x.y.z` for v4, `::1` for v6. -/
def isLoopback : IpAddrM → Bool
  | .v4 a _ _ _ => a == 127
  | .v6 segs => segs == [0, 0, 0, 0, 0, 0, 0, 1]

/-- Display of an IP address (Rust `ToString`).  v4 is rendered exactly as
Rust does; for v6 the model renders all eight groups in lowercase hex and
omits Rust's zero-run compression (no claim depends on this string). -/
def ipToString : IpAddrM → String
  | .v4 a b c d =>
    toString a ++ "." ++ toString b ++ "." ++ toString c ++ "." ++ toString d
  | .v6 segs => String.intercalate ":" (segs.map natToHex)

/-- Model of `std::net::SocketAddr`. -/
structure SocketAddrM where
  ip : IpAddrM
  port : Nat
deriving DecidableEq, Repr

/-- Query parameters: `HashMap<String, String>` modelled as an association
list with replace-on-insert semantics. -/
abbrev QueryParams := List (String × String)

/-- Model of `HashMap::get`. -/
def getParam (params : QueryParams) (k : String) : Option String :=
  (List.find? (fun p => p.1 == k) params).map (fun p => p.2)

/-- Model of `HashMap::insert` (replaces the value when the key is present). -/
def insertParam (m : QueryParams) (k v : String) : QueryParams :=
  if m.any (fun p => p.1 == k) then
    m.map (fun p => if p.1 == k then (k, v) else p)
  else m ++ [(k, v)]

/-! ### Header extraction (`extract_headers`, `get_header_string`) -/

/-- Model of `hyper::HeaderMap`: an association list from (lower-cased)
header names to raw header-value bytes; `get` returns the first value
stored under a name. -/
abbrev HeaderMapM := List (String × List Nat)

/-- Model of `HeaderMap::get`. -/
def hmGet (hm : HeaderMapM) (name : String) : Option (List Nat) :=
  (List.find? (fun p => p.1 == name) hm).map (fun p => p.2)

/-- The byte predicate of `http::HeaderValue::to_str`: visible ASCII
(`0x20`–`0x7E`) or horizontal tab. -/
def isVisibleAsciiByte (b : Nat) : Bool := (32 ≤ b && b < 127) || b == 9

/-- Model of `http::HeaderValue::to_str`: succeeds exactly when every byte
is visible ASCII or tab, in which case the bytes are the characters. -/
def httpToStr (bytes : List Nat) : Option String :=
  if bytes.all isVisibleAsciiByte then
    some (String.mk (bytes.map (fun b => Char.ofNat b)))
  else none

/-- Model of `HttpContext::get_header_string`: fetch the header, decode it with
`to_str` (failure becomes `None`, never an error) and trim whitespace. -/
def get_header_string (hm : HeaderMapM) (name : String) : Option String :=
  match hmGet hm name with
  | some bytes =>
    match httpToStr bytes with
    | some s => some (myTrim s)
    | none => none
  | none => none

/-- Model of `HttpContext::extract_headers`. -/
def extract_headers (hm : HeaderMapM) : RequestHeaders where
  content_type := get_header_string hm "content-type"
  etag := get_header_string hm "etag"
  last_modified := get_header_string hm "last-modified"
  byte_range := get_header_string hm "range"
  accept := get_header_string hm "accept"
  accept_language := get_header_string hm "accept-language"
  user_agent := get_header_string hm "user-agent"
  authorization := get_header_string hm "authorization"
  content_range := get_header_string hm "content-range"
  host := get_header_string hm "host"
  referer := get_header_string hm "referer"
  cache_control := get_header_string hm "cache-control"
  if_none_match := get_header_string hm "if-none-match"
  if_modified_since := get_header_string hm "if-modified-since"

/-- The header names `extract_headers` pulls into typed fields. -/
def recognizedNames : List String :=
  ["content-type", "etag", "last-modified", "range", "accept",
   "accept-language", "user-agent", "authorization", "content-range",
   "host", "referer", "cache-control", "if-none-match",
   "if-modified-since"]

/-- The typed field of a `RequestHeaders` value corresponding to a
recognized header name (`none` for an unrecognized name). -/
def fieldOf (h : RequestHeaders) (name : String) : Option String :=
  if name = "content-type" then h.content_type
  else if name = "etag" then h.etag
  else if name = "last-modified" then h.last_modified
  else if name = "range" then h.byte_range
  else if name = "accept" then h.accept
  else if name = "accept-language" then h.accept_language
  else if name = "user-agent" then h.user_agent
  else if name = "authorization" then h.authorization
  else if name = "content-range" then h.content_range
  else if name = "host" then h.host
  else if name = "referer" then h.referer
  else if name = "cache-control" then h.cache_control
  else if name = "if-none-match" then h.if_none_match
  else if name = "if-modified-since" then h.if_modified_since
  else none

/-- UTF-8 validity of a byte sequence (RFC 3629), used to state the spec's
"decodable as UTF-8" condition. -/
def isUtf8Cont (b : Nat) : Bool := 128 ≤ b && b ≤ 191

def utf8Valid : List Nat → Bool
  | [] => true
  | b :: rest =>
    if b ≤ 127 then utf8Valid rest
    else if 194 ≤ b && b ≤ 223 then
      match rest with
      | b1 :: r => isUtf8Cont b1 && utf8Valid r
      | [] => false
    else if b == 224 then
      match rest with
      | b1 :: b2 :: r => (160 ≤ b1 && b1 ≤ 191) && isUtf8Cont b2 && utf8Valid r
      | _ => false
    else if (225 ≤ b && b ≤ 236) || b == 238 || b == 239 then
      match rest with
      | b1 :: b2 :: r => isUtf8Cont b1 && isUtf8Cont b2 && utf8Valid r
      | _ => false
    else if b == 237 then
      match rest with
      | b1 :: b2 :: r => (128 ≤ b1 && b1 ≤ 159) && isUtf8Cont b2 && utf8Valid r
      | _ => false
    else if b == 240 then
      match rest with
      | b1 :: b2 :: b3 :: r =>
        (144 ≤ b1 && b1 ≤ 191) && isUtf8Cont b2 && isUtf8Cont b3 && utf8Valid r
      | _ => false
    else if 241 ≤ b && b ≤ 243 then
      match rest with
      | b1 :: b2 :: b3 :: r =>
        isUtf8Cont b1 && isUtf8Cont b2 && isUtf8Cont b3 && utf8Valid r
      | _ => false
    else if b == 244 then
      match rest with
      | b1 :: b2 :: b3 :: r =>
        (128 ≤ b1 && b1 ≤ 143) && isUtf8Cont b2 && isUtf8Cont b3 && utf8Valid r
      | _ => false
    else false

/-! ### Query-string parsing (`parse_query_params`) -/

/-- Model of `HttpContext::parse_query_params`: split the query on `&`, split each
pair once on `=` (missing value becomes `""`), skip empty keys. -/
def parse_query_params (query : Option String) : QueryParams :=
  match query with
  | none => []
  | some query_str =>
    (mySplitOn query_str "&").foldl
      (fun params pair =>
        let parts := mySplitOn pair "="
        let key := parts.headD ""
        if key ≠ "" then insertParam params key (parts.getD 1 "")
        else params)
      []

/-! ### Path-pattern matching

The Rust code uses the `regex` crate (leftmost-first semantics) with a
fixed set of simple patterns.  Each pattern is translated into a bespoke
matcher that decides whether the pattern matches *at the start* of a given
character list, returning the text of capture group 1; `scanOpt` then
scans start positions left to right, which is exactly the leftmost-first
match of these (backtracking-free) patterns. -/

/-- Scan start positions left to right and return the first successful
match (the leftmost match of the pattern). -/
def scanOpt (f : List Char → Option (List Char)) : List Char → Option (List Char)
  | [] => f []
  | c :: rest =>
    match f (c :: rest) with
    | some r => some r
    | none => scanOpt f rest

/-- Matcher for `key[_-]?(\d+)` at a position: the literal `key`, an
optional `_`/`-` separator, then a maximal non-empty digit run (the
capture). -/
def matchKeyNum (key : List Char) (cs : List Char) : Option (List Char) :=
  if key.isPrefixOf cs then
    let r := cs.drop key.length
    let r₂ := match r with
      | c :: t => if c == '_' || c == '-' then t else r
      | [] => r
    let ds := r₂.takeWhile Char.isDigit
    if ds.isEmpty then none else some ds
  else none

/-- Matcher for `/(\d+)\.(ts|m4s|chk)` at a position. -/
def matchSlashNumExt (cs : List Char) : Option (List Char) :=
  match cs with
  | '/' :: r =>
    let ds := r.takeWhile Char.isDigit
    if ds.isEmpty then none
    else
      match r.drop ds.length with
      | '.' :: r₃ =>
        if ("ts".data.isPrefixOf r₃ || "m4s".data.isPrefixOf r₃
            || "chk".data.isPrefixOf r₃) then some ds
        else none
      | _ => none
  | _ => none

/-- Matcher for `(\d+)_\d+\.ts` at a position. -/
def matchNumUnderscoreNumTs (cs : List Char) : Option (List Char) :=
  let ds₁ := cs.takeWhile Char.isDigit
  if ds₁.isEmpty then none
  else
    match cs.drop ds₁.length with
    | '_' :: r =>
      let ds₂ := r.takeWhile Char.isDigit
      if ds₂.isEmpty then none
      else if ".ts".data.isPrefixOf (r.drop ds₂.length) then some ds₁
      else none
    | _ => none

/-- Matcher for `_(\d+)\.ts$` at a position (anchored at end of input). -/
def matchUnderscoreNumTsEnd (cs : List Char) : Option (List Char) :=
  match cs with
  | '_' :: r =>
    let ds := r.takeWhile Char.isDigit
    if ds.isEmpty then none
    else if r.drop ds.length == ".ts".data then some ds
    else none
  | _ => none

/-- One pattern attempt of `extract_number_from_path`: find the leftmost
match and parse the capture as `u32` (a capture that overflows `u32` fails
the parse, and the code then moves on to the next pattern). -/
def tryPat (m : List Char → Option (List Char)) (cs : List Char) : Option Nat :=
  match scanOpt m cs with
  | some ds =>
    let v := digitsToNat ds
    if v < 4294967296 then some v else none
  | none => none

/-- Model of `HttpContext::extract_number_from_path`: try the patterns in order and
return the first successfully parsed capture. -/
def extract_number_from_path
    (pats : List (List Char → Option (List Char))) (cs : List Char) : Option Nat :=
  match pats with
  | [] => none
  | p :: rest =>
    match tryPat p cs with
    | some v => some v
    | none => extract_number_from_path rest cs

/-- The segment-index patterns, in source order:
`segment[_-]?(\d+)`, `chunk[_-]?(\d+)`, `/(\d+)\.(ts|m4s|chk)`,
`seg[_-]?(\d+)`, `(\d+)_\d+\.ts`, `fragment[_-]?(\d+)`. -/
def indexPats : List (List Char → Option (List Char)) :=
  [matchKeyNum "segment".data, matchKeyNum "chunk".data, matchSlashNumExt,
   matchKeyNum "seg".data, matchNumUnderscoreNumTs,
   matchKeyNum "fragment".data]

/-- The sequence-number patterns, in source order:
`_(\d+)\.ts$`, `seq[_-]?(\d+)`, `sequence[_-]?(\d+)`. -/
def seqPats : List (List Char → Option (List Char)) :=
  [matchUnderscoreNumTsEnd, matchKeyNum "seq".data,
   matchKeyNum "sequence".data]

/-- Model of `HttpContext::extract_segment_info` (always returns `Some`). -/
def extract_segment_info (path : String) (params : QueryParams) :
    Option SegmentInfo :=
  let cs := path.data
  let indexFromPath := extract_number_from_path indexPats cs
  let index := match indexFromPath with
    | some i => some i
    | none =>
      let q := match getParam params "segment" with
        | some s => some s
        | none =>
          match getParam params "seg" with
          | some s => some s
          | none => getParam params "index"
      match q with
      | some s => parseU32 s
      | none => none
  let duration := match getParam params "duration" with
    | some s => parseF32 s
    | none => none
  some
    { index := index
      sequence_number := extract_number_from_path seqPats cs
      is_chunk := containsSub path "chunk"
      duration := duration }

/-! ### Codec detection and content categorization -/

/-- Model of `HttpContext::detect_codec`: the `codec`/`c` query parameter first,
then known codec tokens in the lower-cased path, in priority order. -/
def detect_codec (path : String) (params : QueryParams) : Option String :=
  match (match getParam params "codec" with
         | some c => some c
         | none => getParam params "c") with
  | some codec => some codec
  | none =>
    let pl := lowerStr path
    if containsSub pl "h264" || containsSub pl "avc" then some "h264"
    else if containsSub pl "h265" || containsSub pl "hevc" then some "h265"
    else if containsSub pl "vp9" then some "vp9"
    else if containsSub pl "av1" then some "av1"
    else if containsSub pl "aac" then some "aac"
    else if containsSub pl "mp3" then some "mp3"
    else none

/-- The four values computed by `HttpContext::categorize_content`. -/
structure Categorization where
  category : ContentCategory
  media_type : Option MediaType
  is_streaming : Bool
  is_init_segment : Bool

/-- The `_` arm of `categorize_content`: ordered substring tests on the
(lower-cased) path, then the `init=1` query parameter. -/
def fallbackCategorize (path : String) (params : QueryParams) : Categorization :=
  if containsSub path "/video/" || containsSub path "/media/"
      || containsSub path "/movie/" then
    ⟨ContentCategory.Video, none, false, false⟩
  else if containsSub path "/audio/" || containsSub path "/music/" then
    ⟨ContentCategory.Audio, none, false, false⟩
  else if containsSub path "/stream/" || containsSub path "/hls/"
      || containsSub path "/dash/" then
    ⟨ContentCategory.StreamingManifest, none, true, false⟩
  else if containsSub path "/segment" || containsSub path "/chunk"
      || containsSub path "/fragment" then
    ⟨ContentCategory.MediaSegment, none, true, false⟩
  else if containsSub path "/init"
      || (match getParam params "init" with
          | some v => v == "1"
          | none => false) then
    ⟨ContentCategory.MediaSegment, none, true, true⟩
  else if containsSub path "/image/" || containsSub path "/img/" then
    ⟨ContentCategory.Image, none, false, false⟩
  else
    ⟨ContentCategory.Other, none, false, false⟩

/-- Model of `HttpContext::categorize_content`: the fixed extension table first,
falling back to the path/query patterns.  `path` is the lower-cased path
(as at the call site in `analyze_content`). -/
def categorize_content (path : String) (file_extension : Option String)
    (params : QueryParams) : Categorization :=
  match file_extension with
  | some e =>
    if e = "mp4" ∨ e = "avi" ∨ e = "mov" ∨ e = "mkv" ∨ e = "webm" ∨ e = "flv" then
      ⟨ContentCategory.Video,
        some ⟨"video", detect_codec path params, some e⟩, false, false⟩
    else if e = "mp3" ∨ e = "wav" ∨ e = "ogg" ∨ e = "flac" ∨ e = "aac"
        ∨ e = "m4a" then
      ⟨ContentCategory.Audio,
        some ⟨"audio", detect_codec path params, some e⟩, false, false⟩
    else if e = "m3u8" then ⟨ContentCategory.StreamingManifest, none, true, false⟩
    else if e = "mpd" then ⟨ContentCategory.StreamingManifest, none, true, false⟩
    else if e = "ts" ∨ e = "m4s" ∨ e = "chk" then
      ⟨ContentCategory.MediaSegment, none, true, false⟩
    else if e = "jpg" ∨ e = "jpeg" ∨ e = "png" ∨ e = "gif" ∨ e = "webp"
        ∨ e = "svg" ∨ e = "bmp" then
      ⟨ContentCategory.Image, none, false, false⟩
    else if e = "pdf" ∨ e = "doc" ∨ e = "docx" ∨ e = "xls" ∨ e = "xlsx"
        ∨ e = "ppt" ∨ e = "pptx" then
      ⟨ContentCategory.Document, none, false, false⟩
    else if e = "css" then ⟨ContentCategory.Stylesheet, none, false, false⟩
    else if e = "js" then ⟨ContentCategory.Script, none, false, false⟩
    else if e = "html" ∨ e = "htm" then ⟨ContentCategory.Html, none, false, false⟩
    else if e = "json" then
      ⟨ContentCategory.Data DataFormat.Json, none, false, false⟩
    else if e = "xml" then
      ⟨ContentCategory.Data DataFormat.Xml, none, false, false⟩
    else if e = "txt" then
      ⟨ContentCategory.Data DataFormat.Text, none, false, false⟩
    else fallbackCategorize path params
  | none => fallbackCategorize path params

/-! ### Resolution and quality extraction -/

/-- The `WxH` branch of `parse_resolution`: `split_once('x')` on the
lower-cased text, requiring both halves to parse as `u32`. -/
def wxhSplit (res_lower : String) : Option (Nat × Nat) :=
  match splitOnceChar res_lower 'x' with
  | some (w_str, h_str) =>
    match parseU32 w_str, parseU32 h_str with
    | some w, some h => some (w, h)
    | _, _ => none
  | none => none

/-- The standard-label table of `parse_resolution` (the default arm keeps
the original text as the label with absent width/height). -/
def labelTable (res_str res_lower : String) : Resolution :=
  if res_lower = "4k" ∨ res_lower = "2160p" ∨ res_lower = "uhd" then
    ⟨some 3840, some 2160, "4K"⟩
  else if res_lower = "2k" ∨ res_lower = "1440p" then
    ⟨some 2560, some 1440, "2K"⟩
  else if res_lower = "1080p" ∨ res_lower = "fullhd" then
    ⟨some 1920, some 1080, "1080p"⟩
  else if res_lower = "720p" ∨ res_lower = "hd" then
    ⟨some 1280, some 720, "720p"⟩
  else if res_lower = "480p" ∨ res_lower = "sd" then
    ⟨some 854, some 480, "480p"⟩
  else if res_lower = "360p" then ⟨some 640, some 360, "360p"⟩
  else if res_lower = "240p" then ⟨some 426, some 240, "240p"⟩
  else if res_lower = "144p" then ⟨some 256, some 144, "144p"⟩
  else ⟨none, none, res_str⟩

/-- Model of `HttpContext::parse_resolution` (note: it always returns `Some`). -/
def parse_resolution (res_str : String) : Option Resolution :=
  match wxhSplit (lowerStr res_str) with
  | some wh => some ⟨some wh.1, some wh.2, res_str⟩
  | none => some (labelTable res_str (lowerStr res_str))

/-- Matcher for `(\d{3,4}[xp])` at a position (greedy: four digits tried
before three). -/
def match34xp (cs : List Char) : Option (List Char) :=
  match cs with
  | a :: b :: c :: d :: e :: _ =>
    if (a.isDigit && b.isDigit && c.isDigit && d.isDigit)
        && (e == 'x' || e == 'p') then some [a, b, c, d, e]
    else if (a.isDigit && b.isDigit && c.isDigit) && (d == 'x' || d == 'p') then
      some [a, b, c, d]
    else none
  | [a, b, c, d] =>
    if (a.isDigit && b.isDigit && c.isDigit) && (d == 'x' || d == 'p') then
      some [a, b, c, d]
    else none
  | _ => none

/-- Exactly `n` ASCII digits from the front of the list, with the rest. -/
def digitsN : Nat → List Char → Option (List Char × List Char)
  | 0, rest => some ([], rest)
  | n + 1, c :: rest =>
    if c.isDigit then (digitsN n rest).map (fun p => (c :: p.1, p.2))
    else none
  | _ + 1, [] => none

/-- Matcher for `(\d{3,4}x\d{3,4})` at a position, with the greedy
backtracking order (4,4), (4,3), (3,4), (3,3). -/
def match34x34 (cs : List Char) : Option (List Char) :=
  let attempt := fun (m n : Nat) =>
    match digitsN m cs with
    | some (d₁, r₁) =>
      match r₁ with
      | 'x' :: r₂ =>
        match digitsN n r₂ with
        | some (d₂, _) => some (d₁ ++ 'x' :: d₂)
        | none => none
      | _ => none
    | none => none
  match attempt 4 4 with
  | some c => some c
  | none =>
    match attempt 4 3 with
    | some c => some c
    | none =>
      match attempt 3 4 with
      | some c => some c
      | none => attempt 3 3

/-- Matcher for `(hd|sd|fullhd|4k|2k|uhd)` at a position (alternatives
tried in order). -/
def matchQualityWord (cs : List Char) : Option (List Char) :=
  if "hd".data.isPrefixOf cs then some "hd".data
  else if "sd".data.isPrefixOf cs then some "sd".data
  else if "fullhd".data.isPrefixOf cs then some "fullhd".data
  else if "4k".data.isPrefixOf cs then some "4k".data
  else if "2k".data.isPrefixOf cs then some "2k".data
  else if "uhd".data.isPrefixOf cs then some "uhd".data
  else none

/-- Matcher for `/(\d+p)/` at a position. -/
def matchSlashNumP (cs : List Char) : Option (List Char) :=
  match cs with
  | '/' :: r =>
    let ds := r.takeWhile Char.isDigit
    if ds.isEmpty then none
    else
      match r.drop ds.length with
      | 'p' :: '/' :: _ => some (ds ++ ['p'])
      | _ => none
  | _ => none

/-- Model of `HttpContext::extract_resolution_from_path`: the four patterns in
source order; the first leftmost match is fed to `parse_resolution`. -/
def extract_resolution_from_path (path : String) : Option Resolution :=
  let cs := path.data
  match scanOpt match34xp cs with
  | some cap => parse_resolution (String.mk cap)
  | none =>
    match scanOpt match34x34 cs with
    | some cap => parse_resolution (String.mk cap)
    | none =>
      match scanOpt matchQualityWord cs with
      | some cap => parse_resolution (String.mk cap)
      | none =>
        match scanOpt matchSlashNumP cs with
        | some cap => parse_resolution (String.mk cap)
        | none => none

/-- The quality query parameter chain `resolution`/`res`/`quality`/`q`. -/
def queryQuality (params : QueryParams) : Option String :=
  match getParam params "resolution" with
  | some v => some v
  | none =>
    match getParam params "res" with
    | some v => some v
    | none =>
      match getParam params "quality" with
      | some v => some v
      | none => getParam params "q"

/-- The bitrate query parameter chain `bitrate`/`br`/`rate`. -/
def queryBitrate (params : QueryParams) : Option String :=
  match getParam params "bitrate" with
  | some v => some v
  | none =>
    match getParam params "br" with
    | some v => some v
    | none => getParam params "rate"

/-- The first `q=` token of an `Accept` header value: the first
comma-separated part containing `q=` yields `"q" ++` the text between the
first `q=` and the following `;` (the loop body in
`extract_quality_info`). -/
def acceptQLabel (accept : String) : Option String :=
  match (mySplitOn accept ",").find? (fun part => containsSub part "q=") with
  | some part =>
    match (mySplitOn part "q=").get? 1 with
    | some q_value => some ("q" ++ ((mySplitOn q_value ";").headD ""))
    | none => none
  | none => none

/-- Model of `HttpContext::extract_quality_info`.  The imperative original fills a
mutable `QualityInfo`; each field below is the final value it ends up
with: the resolution comes from the query chain (whose `parse_resolution`
always returns `Some`) or else from the path; the label set from the query
chain is overwritten by the `Accept` `q=` factor whenever the `Accept`
header contains `"q="`. -/
def extract_quality_info (path : String) (params : QueryParams)
    (headers : RequestHeaders) : QualityInfo where
  resolution :=
    match queryQuality params with
    | some res_str => parse_resolution res_str
    | none => extract_resolution_from_path path
  bitrate := queryBitrate params
  quality_label :=
    match headers.accept with
    | some accept =>
      if containsSub accept "q=" then
        match acceptQLabel accept with
        | some l => some l
        | none => queryQuality params
      else queryQuality params
    | none => queryQuality params

/-! ### Content analysis (`analyze_content`) -/

/-- The file-extension computation at the top of `analyze_content`:
`path.split('.').last()` filtered by
`!ext.is_empty() && !path_lower.ends_with(ext)`, then lower-cased. -/
def fileExtensionOf (path : String) : Option String :=
  let path_lower := lowerStr path
  match (mySplitOn path ".").getLast? with
  | some ext =>
    if (!(ext == "")) && (!strEndsWith path_lower ext) then some (lowerStr ext)
    else none
  | none => none

/-- Model of `HttpContext::analyze_content`. -/
def analyze_content (path : String) (params : QueryParams)
    (headers : RequestHeaders) : ContentInfo :=
  let path_lower := lowerStr path
  let file_extension := fileExtensionOf path
  let c := categorize_content path_lower file_extension params
  { content_category := c.category
    media_type := c.media_type
    file_extension := file_extension
    is_streaming := c.is_streaming
    is_init_segment := c.is_init_segment
    segment_info :=
      if c.is_streaming then extract_segment_info path_lower params else none
    quality_info := extract_quality_info path_lower params headers }

/-! ### Authentication, network info and context construction -/

/-- Rust `HttpContext::simple_hash` uses `std::collections::hash_map::DefaultHasher`,
whose algorithm Rust explicitly leaves unspecified and unstable across
releases.  It is modelled by a deterministic stand-in hash rendered in
hex; no claim depends on the hash value, only on when a hash is
computed at all. -/
def simple_hash (s : String) : String :=
  natToHex (s.data.foldl (fun a c => (a * 31 + c.toNat) % 18446744073709551616) 5381)

/-- Model of `HttpContext::extract_auth_info`: present exactly when the
`authorization` header field is present. -/
def extract_auth_info (headers : RequestHeaders) : Option AuthInfo :=
  headers.authorization.map (fun auth =>
    { auth_type :=
        if strStartsWith auth "Bearer " then "bearer"
        else if strStartsWith auth "Basic " then "basic"
        else if strStartsWith auth "Digest " then "digest"
        else "unknown"
      auth_hash := simple_hash auth
      requires_auth := true })

/-- Model of `HttpContext::extract_network_info`. -/
def extract_network_info (client_addr : SocketAddrM)
    (headers : RequestHeaders) : NetworkInfo where
  client_ip := ipToString client_addr.ip
  port := client_addr.port
  is_local := isLoopback client_addr.ip
  protocol :=
    headers.host.bind (fun host =>
      if strStartsWith host "https://" then some "https"
      else if strStartsWith host "http://" then some "http"
      else none)

/-- Model of `hyper::Uri` restricted to what the code reads: path and query. -/
structure UriM where
  path : String
  query : Option String
deriving DecidableEq, Repr

/-- Rust `struct HttpContext`. -/
structure HttpContext where
  client_addr : SocketAddrM
  request_method : String
  request_uri : UriM
  path : String
  query_params : QueryParams
  headers : RequestHeaders
  content_info : ContentInfo
  auth_info : Option AuthInfo
  network_info : NetworkInfo

/-- Model of `HttpContext::from_request` (the request is its method, URI, header
map and client address). -/
def from_request (method : String) (uri : UriM) (hm : HeaderMapM)
    (client_addr : SocketAddrM) : HttpContext :=
  let headers := extract_headers hm
  let path := uri.path
  let query_params := parse_query_params uri.query
  { client_addr := client_addr
    request_method := method
    request_uri := uri
    path := path
    query_params := query_params
    headers := headers
    content_info := analyze_content path query_params headers
    auth_info := extract_auth_info headers
    network_info := extract_network_info client_addr headers }

/-- Rust `enum CachePriority`. -/
inductive CachePriority
  | Critical
  | High
  | Medium
  | Normal
  | Low
deriving DecidableEq, Repr

namespace HttpContext

/-- Model of `HttpContext::is_media_request`. -/
def is_media_request (ctx : HttpContext) : Bool :=
  match ctx.content_info.content_category with
  | ContentCategory.Video => true
  | ContentCategory.Audio => true
  | _ => false

/-- Model of `HttpContext::is_streaming_request`. -/
def is_streaming_request (ctx : HttpContext) : Bool :=
  ctx.content_info.is_streaming

/-- Model of `HttpContext::is_partial_content`. -/
def is_partial_content (ctx : HttpContext) : Bool :=
  ctx.headers.byte_range.isSome || ctx.headers.content_range.isSome

/-- Model of `HttpContext::has_authorization`. -/
def has_authorization (ctx : HttpContext) : Bool :=
  ctx.auth_info.isSome

/-- Model of `HttpContext::get_cache_priority`. -/
def get_cache_priority (ctx : HttpContext) : CachePriority :=
  if ctx.is_streaming_request then CachePriority.High
  else if ctx.is_media_request then CachePriority.Medium
  else if ctx.has_authorization then CachePriority.Low
  else CachePriority.Normal

/-- Model of `HttpContext::should_cache`. -/
def should_cache (ctx : HttpContext) : Bool :=
  !ctx.has_authorization || ctx.network_info.is_local

/-- Model of `HttpContext::get_cache_duration_hint`. -/
def get_cache_duration_hint (ctx : HttpContext) : Option Nat :=
  match ctx.content_info.content_category with
  | ContentCategory.Image => some 86400
  | ContentCategory.Stylesheet => some 604800
  | ContentCategory.Script => some 604800
  | ContentCategory.StreamingManifest => some 300
  | ContentCategory.MediaSegment => some 3600
  | _ => none

end HttpContext

/-! ### Conditional evaluator (spec §4.4) -/

/-- Whether a present `If-None-Match` list matches a present current ETag
(the list contains `*` or the exact ETag). -/
def ifNoneMatchApplies (if_none_match : Option (List String))
    (etag : Option String) : Bool :=
  match if_none_match, etag with
  | some l, some e => l.contains "*" || l.contains e
  | _, _ => false

/-- Modelled from the spec: `should_return_not_modified` (§4.4) is not part
of `src/` — only the spec describes it.  "True if `if_modified_since` is
present, `last_modified` is present, and `last_modified ≤
if_modified_since`.  Else true if `if_none_match` is present, `etag` is
present, and the list contains `*` or an exact match to `etag`.  Else
false."  Timestamps are whole seconds. -/
def should_return_not_modified (if_modified_since : Option Nat)
    (if_none_match : Option (List String)) (last_modified : Option Nat)
    (etag : Option String) : Bool :=
  (match if_modified_since, last_modified with
   | some t, some l => decide (l ≤ t)
   | _, _ => false)
  || ifNoneMatchApplies if_none_match etag

/-! ### Theorems -/

/-- C1: the extension filter `!path_lower.ends_with(ext)` discards every
already-lowercase extension and keeps dot-less upper-case paths: for the
ordinary path `/videos/movie.mp4` the code produces `file_extension =
None` (the claim requires `Some "mp4"`), while for the dot-less path
`/README` it produces `Some "/readme"` (the claim requires `None`). -/
theorem c1_extension_filter_bug :
    fileExtensionOf "/videos/movie.mp4" = none
    ∧ fileExtensionOf "/README" = some "/readme" := by
  decide

/-- C2: classifying `/videos/movie.mp4?codec=h265&resolution=1080p`
actually yields category `Other` with no media type (the extension filter
drops `mp4`, and the path-pattern fallback does not match `/videos/`);
only the claimed resolution `1920×1080` is produced. -/
theorem c2_video_classification_bug :
    (analyze_content "/videos/movie.mp4"
        (parse_query_params (some "codec=h265&resolution=1080p"))
        noHeaders).content_category = ContentCategory.Other
    ∧ (analyze_content "/videos/movie.mp4"
        (parse_query_params (some "codec=h265&resolution=1080p"))
        noHeaders).media_type = none
    ∧ (analyze_content "/videos/movie.mp4"
        (parse_query_params (some "codec=h265&resolution=1080p"))
        noHeaders).quality_info.resolution
      = some ⟨some 1920, some 1080, "1080p"⟩ := by
  refine ⟨by decide, by decide, by decide⟩

/-- C3: classifying `/hls/stream/segment_42.ts` actually yields category
`StreamingManifest` (the extension filter drops `ts`, and the `/hls/`
path pattern fires before the `/segment` one); `is_streaming = true` and
segment index `42` do hold. -/
theorem c3_segment_classification_bug :
    (analyze_content "/hls/stream/segment_42.ts" [] noHeaders).content_category
      = ContentCategory.StreamingManifest
    ∧ (analyze_content "/hls/stream/segment_42.ts" [] noHeaders).is_streaming
      = true
    ∧ ((analyze_content "/hls/stream/segment_42.ts" [] noHeaders).segment_info.map
        SegmentInfo.index) = some (some 42) := by
  refine ⟨by decide, by decide, by decide⟩

/-- The two `ContentClassification` invariants, in case-split-friendly
disjunction form, for the fallback path-pattern categorization. -/
theorem fallbackCategorize_inv (path : String) (params : QueryParams) :
    ((fallbackCategorize path params).is_init_segment = false
      ∨ (fallbackCategorize path params).is_streaming = true)
    ∧ ((fallbackCategorize path params).media_type = none
      ∨ (fallbackCategorize path params).category = ContentCategory.Video
      ∨ (fallbackCategorize path params).category = ContentCategory.Audio) := by
  unfold fallbackCategorize
  repeat' split
  all_goals simp

/-- The two `ContentClassification` invariants, in disjunction form, for
`categorize_content`. -/
theorem categorize_content_inv (path : String) (ext : Option String)
    (params : QueryParams) :
    ((categorize_content path ext params).is_init_segment = false
      ∨ (categorize_content path ext params).is_streaming = true)
    ∧ ((categorize_content path ext params).media_type = none
      ∨ (categorize_content path ext params).category = ContentCategory.Video
      ∨ (categorize_content path ext params).category = ContentCategory.Audio) := by
  cases ext with
  | none =>
    simp only [categorize_content]
    exact fallbackCategorize_inv path params
  | some e =>
    simp only [categorize_content]
    by_cases h1 : e = "mp4" ∨ e = "avi" ∨ e = "mov" ∨ e = "mkv" ∨ e = "webm" ∨ e = "flv"
    · rw [if_pos h1]
      simp
    rw [if_neg h1]
    by_cases h2 : e = "mp3" ∨ e = "wav" ∨ e = "ogg" ∨ e = "flac" ∨ e = "aac" ∨ e = "m4a"
    · rw [if_pos h2]
      simp
    rw [if_neg h2]
    by_cases h3 : e = "m3u8"
    · rw [if_pos h3]
      simp
    rw [if_neg h3]
    by_cases h4 : e = "mpd"
    · rw [if_pos h4]
      simp
    rw [if_neg h4]
    by_cases h5 : e = "ts" ∨ e = "m4s" ∨ e = "chk"
    · rw [if_pos h5]
      simp
    rw [if_neg h5]
    by_cases h6 : e = "jpg" ∨ e = "jpeg" ∨ e = "png" ∨ e = "gif" ∨ e = "webp" ∨ e = "svg" ∨ e = "bmp"
    · rw [if_pos h6]
      simp
    rw [if_neg h6]
    by_cases h7 : e = "pdf" ∨ e = "doc" ∨ e = "docx" ∨ e = "xls" ∨ e = "xlsx" ∨ e = "ppt" ∨ e = "pptx"
    · rw [if_pos h7]
      simp
    rw [if_neg h7]
    by_cases h8 : e = "css"
    · rw [if_pos h8]
      simp
    rw [if_neg h8]
    by_cases h9 : e = "js"
    · rw [if_pos h9]
      simp
    rw [if_neg h9]
    by_cases h10 : e = "html" ∨ e = "htm"
    · rw [if_pos h10]
      simp
    rw [if_neg h10]
    by_cases h11 : e = "json"
    · rw [if_pos h11]
      simp
    rw [if_neg h11]
    by_cases h12 : e = "xml"
    · rw [if_pos h12]
      simp
    rw [if_neg h12]
    by_cases h13 : e = "txt"
    · rw [if_pos h13]
      simp
    rw [if_neg h13]
    exact fallbackCategorize_inv path params

/-- C4: for every path, query-parameter map and headers value, the
`ContentInfo` produced by `analyze_content` satisfies
`is_init_segment → is_streaming` and
`media_type present → category ∈ {Video, Audio}`. -/
theorem c4_content_invariants (path : String) (params : QueryParams)
    (headers : RequestHeaders) :
    ((analyze_content path params headers).is_init_segment = true →
      (analyze_content path params headers).is_streaming = true)
    ∧ ((analyze_content path params headers).media_type.isSome = true →
      (analyze_content path params headers).content_category = ContentCategory.Video
      ∨ (analyze_content path params headers).content_category = ContentCategory.Audio) := by
  have h : ((categorize_content (lowerStr path) (fileExtensionOf path) params).is_init_segment = false
      ∨ (categorize_content (lowerStr path) (fileExtensionOf path) params).is_streaming = true)
      ∧ ((categorize_content (lowerStr path) (fileExtensionOf path) params).media_type = none
      ∨ (categorize_content (lowerStr path) (fileExtensionOf path) params).category = ContentCategory.Video
      ∨ (categorize_content (lowerStr path) (fileExtensionOf path) params).category = ContentCategory.Audio) :=
    categorize_content_inv (lowerStr path) (fileExtensionOf path) params
  constructor
  · intro hinit
    rcases h.1 with hfalse | htrue
    · have hf : (analyze_content path params headers).is_init_segment = false := hfalse
      rw [hinit] at hf
      exact absurd hf (by simp)
    · exact htrue
  · intro hsome
    rcases h.2 with hnone | hvid | haud
    · have hn : (analyze_content path params headers).media_type = none := hnone
      rw [hn] at hsome
      exact absurd hsome (by simp)
    · exact Or.inl hvid
    · exact Or.inr haud

/-- Witness for C4: a path classified as an init segment is streaming, and
a path with a (surviving, upper-case) video extension is Video. -/
theorem c4_content_invariants_witness :
    (analyze_content "/init" [] noHeaders).is_streaming = true
    ∧ ((analyze_content "/a.MP4" [] noHeaders).content_category = ContentCategory.Video
      ∨ (analyze_content "/a.MP4" [] noHeaders).content_category = ContentCategory.Audio) :=
  ⟨(c4_content_invariants "/init" [] noHeaders).1 (by decide),
   (c4_content_invariants "/a.MP4" [] noHeaders).2 (by decide)⟩

/-- C10: segment information is present in the analyzed `ContentInfo`
exactly when the request is classified as streaming
(`extract_segment_info` always returns a value, and it is invoked exactly
when `is_streaming` holds). -/
theorem c10_segment_iff_streaming (path : String) (params : QueryParams)
    (headers : RequestHeaders) :
    (analyze_content path params headers).segment_info.isSome = true
      ↔ (analyze_content path params headers).is_streaming = true := by
  show (if (categorize_content (lowerStr path) (fileExtensionOf path) params).is_streaming
          then extract_segment_info (lowerStr path) params else none).isSome = true
        ↔ (categorize_content (lowerStr path) (fileExtensionOf path) params).is_streaming = true
  cases (categorize_content (lowerStr path) (fileExtensionOf path) params).is_streaming
  · simp
  · simp [extract_segment_info]

/-- C5 counterexample: with `resolution=1080p` in the query *and* an
`Accept` header containing a `q=` factor, the quality label is the
`Accept`-derived `q0.9`, not the query value `1080p` — the `Accept` block
overwrites an already-found query quality. -/
theorem c5_counterexample :
    getParam [("resolution", "1080p")] "resolution" = some "1080p"
    ∧ (extract_quality_info "/videos/movie" [("resolution", "1080p")]
        { noHeaders with accept := some "video/mp4;q=0.9" }).quality_label
      = some "q0.9"
    ∧ some "q0.9" ≠ some "1080p" := by
  refine ⟨by decide, by decide, by decide⟩

/-- C5 (amended): a quality found in the query determines the quality
label only when the `Accept` header is absent or contains no `q=`; when
the `Accept` header contains `q=` and yields a `q`-token, that token
overwrites the label even though a query quality was present. -/
theorem c5_quality_label :
    (∀ path params headers v, queryQuality params = some v →
      (∀ a, headers.accept = some a → containsSub a "q=" = false) →
      (extract_quality_info path params headers).quality_label = some v)
    ∧ (∀ path params headers a l, headers.accept = some a →
      containsSub a "q=" = true → acceptQLabel a = some l →
      (extract_quality_info path params headers).quality_label = some l) := by
  constructor
  · intro path params headers v hq hacc
    cases ha : headers.accept with
    | none => simp [extract_quality_info, ha, hq]
    | some a =>
      have hfalse := hacc a ha
      simp [extract_quality_info, ha, hfalse, hq]
  · intro path params headers a l ha hq hl
    simp [extract_quality_info, ha, hq, hl]

/-- Witness for C5: a query quality survives when `Accept` is absent, and
an `Accept` `q=` factor yields the label when present. -/
theorem c5_quality_label_witness :
    (extract_quality_info "/p" [("q", "720p")] noHeaders).quality_label
      = some "720p"
    ∧ (extract_quality_info "/p" []
        { noHeaders with accept := some "a;q=1" }).quality_label = some "q1" :=
  ⟨c5_quality_label.1 "/p" [("q", "720p")] noHeaders "720p" (by decide)
    (fun a h => by simp [noHeaders] at h),
   c5_quality_label.2 "/p" [] { noHeaders with accept := some "a;q=1" }
    "a;q=1" "q1" rfl (by decide) (by decide)⟩

/-- C6 counterexample: the two-byte value `0xC3 0xA9` (`é`) is valid
UTF-8, yet the typed field is absent — `HeaderValue::to_str` only accepts
visible ASCII (or tab), not arbitrary UTF-8. -/
theorem c6_counterexample :
    utf8Valid [195, 169] = true
    ∧ (extract_headers [("authorization", [195, 169])]).authorization = none := by
  refine ⟨by decide, by decide⟩

/-- Evaluation of `get_header_string` on a present header value: the trimmed decoded
string when every byte is visible ASCII or tab, absent otherwise. -/
theorem get_header_string_eq (hm : HeaderMapM) (name : String)
    (bytes : List Nat) (hb : hmGet hm name = some bytes) :
    get_header_string hm name =
      if bytes.all isVisibleAsciiByte then
        some (myTrim (String.mk (bytes.map (fun b => Char.ofNat b))))
      else none := by
  unfold get_header_string httpToStr
  rw [hb]
  cases h : bytes.all isVisibleAsciiByte <;> simp [h]

/-- C6 (amended): header extraction is total and never rejects a request;
for every recognized header name present with a value all of whose bytes
are visible ASCII (or tab), the typed field holds the whitespace-trimmed
decoded string, and any other present value (even valid UTF-8) yields an
absent typed field. -/
theorem c6_typed_fields (hm : HeaderMapM) (name : String) (bytes : List Nat)
    (hmem : name ∈ recognizedNames) (hb : hmGet hm name = some bytes) :
    fieldOf (extract_headers hm) name =
      if bytes.all isVisibleAsciiByte then
        some (myTrim (String.mk (bytes.map (fun b => Char.ofNat b))))
      else none := by
  simp only [recognizedNames, List.mem_cons, List.not_mem_nil, or_false] at hmem
  rcases hmem with rfl | rfl | rfl | rfl | rfl | rfl | rfl | rfl | rfl | rfl
    | rfl | rfl | rfl | rfl
  all_goals exact get_header_string_eq hm _ bytes hb

/-- Witness for C6: a present visible-ASCII `accept` value surfaces as the
typed field. -/
theorem c6_typed_fields_witness :
    fieldOf (extract_headers [("accept", [104, 105])]) "accept" = some "hi" := by
  have h := c6_typed_fields [("accept", [104, 105])] "accept" [104, 105]
    (by decide) (by decide)
  rw [h]
  decide

/-- The recognized-label list of claim C7 (spec §4.5 step 6). -/
def claimLabels : List String :=
  ["4k", "1080p", "720p", "480p", "360p", "240p", "144p", "hd", "sd",
   "fullhd", "uhd", "2k"]

/-- The labels the code's table actually recognizes: the claimed twelve
plus `2160p` and `1440p`. -/
def recognizedLabels : List String :=
  ["4k", "2160p", "uhd", "2k", "1440p", "1080p", "fullhd", "720p", "hd",
   "480p", "sd", "360p", "240p", "144p"]

/-- C7 counterexample: `2160p` is not in the claim's recognized list and is
not in `WIDTHxHEIGHT` form, yet `parse_resolution` maps it to the canonical
4K pair rather than to an absent width/height. -/
theorem c7_counterexample :
    ("2160p" ∈ claimLabels → False)
    ∧ wxhSplit (lowerStr "2160p") = none
    ∧ parse_resolution "2160p" = some ⟨some 3840, some 2160, "4K"⟩ := by
  refine ⟨by decide, by decide, by decide⟩

/-- C7 (amended): every label recognized by the table (the claimed twelve
plus `2160p` and `1440p`, case-insensitively) resolves to a present
canonical width/height pair, and every other label that is not in
`WIDTHxHEIGHT` form keeps the input text as the label with width and
height both absent. -/
theorem c7_parse_resolution (s : String) :
    (lowerStr s ∈ recognizedLabels →
      ∃ w h lbl, parse_resolution s = some ⟨some w, some h, lbl⟩)
    ∧ (lowerStr s ∉ recognizedLabels → wxhSplit (lowerStr s) = none →
      parse_resolution s = some ⟨none, none, s⟩) := by
  constructor
  · intro hmem
    simp only [recognizedLabels, List.mem_cons, List.not_mem_nil, or_false]
      at hmem
    rcases hmem with h | h | h | h | h | h | h | h | h | h | h | h | h | h
    · exact ⟨3840, 2160, "4K", by unfold parse_resolution; rw [h]; exact rfl⟩
    · exact ⟨3840, 2160, "4K", by unfold parse_resolution; rw [h]; exact rfl⟩
    · exact ⟨3840, 2160, "4K", by unfold parse_resolution; rw [h]; exact rfl⟩
    · exact ⟨2560, 1440, "2K", by unfold parse_resolution; rw [h]; exact rfl⟩
    · exact ⟨2560, 1440, "2K", by unfold parse_resolution; rw [h]; exact rfl⟩
    · exact ⟨1920, 1080, "1080p", by unfold parse_resolution; rw [h]; exact rfl⟩
    · exact ⟨1920, 1080, "1080p", by unfold parse_resolution; rw [h]; exact rfl⟩
    · exact ⟨1280, 720, "720p", by unfold parse_resolution; rw [h]; exact rfl⟩
    · exact ⟨1280, 720, "720p", by unfold parse_resolution; rw [h]; exact rfl⟩
    · exact ⟨854, 480, "480p", by unfold parse_resolution; rw [h]; exact rfl⟩
    · exact ⟨854, 480, "480p", by unfold parse_resolution; rw [h]; exact rfl⟩
    · exact ⟨640, 360, "360p", by unfold parse_resolution; rw [h]; exact rfl⟩
    · exact ⟨426, 240, "240p", by unfold parse_resolution; rw [h]; exact rfl⟩
    · exact ⟨256, 144, "144p", by unfold parse_resolution; rw [h]; exact rfl⟩
  · intro hmem hwxh
    unfold parse_resolution
    rw [hwxh]
    simp only [recognizedLabels, List.mem_cons, List.not_mem_nil, or_false,
      not_or] at hmem
    obtain ⟨n₁, n₂, n₃, n₄, n₅, n₆, n₇, n₈, n₉, n₁₀, n₁₁, n₁₂, n₁₃, n₁₄⟩ := hmem
    simp [labelTable, n₁, n₂, n₃, n₄, n₅, n₆, n₇, n₈, n₉, n₁₀, n₁₁, n₁₂, n₁₃,
      n₁₄]

/-- Witness for C7: `4k` resolves to a full pair; `zzz` keeps its text with
absent width/height. -/
theorem c7_parse_resolution_witness :
    (∃ w h lbl, parse_resolution "4k" = some ⟨some w, some h, lbl⟩)
    ∧ parse_resolution "zzz" = some ⟨none, none, "zzz"⟩ :=
  ⟨(c7_parse_resolution "4k").1 (by decide),
   (c7_parse_resolution "zzz").2 (by decide) (by decide)⟩

/-- C8: `should_return_not_modified` returns true whenever
`if_modified_since` and `last_modified` are both present with
`last_modified ≤ if_modified_since` (equality included), and returns false
when `last_modified` is one second after `if_modified_since` and no
`If-None-Match` condition applies. -/
theorem c8_not_modified :
    (∀ t l inm etag, l ≤ t →
      should_return_not_modified (some t) inm (some l) etag = true)
    ∧ (∀ t l inm etag, l = t + 1 → ifNoneMatchApplies inm etag = false →
      should_return_not_modified (some t) inm (some l) etag = false) := by
  constructor
  · intro t l inm etag h
    simp [should_return_not_modified, h]
  · intro t l inm etag h hn
    subst h
    simp [should_return_not_modified, hn,
      decide_eq_false (by omega : ¬ (t + 1 ≤ t))]

/-- Witness for C8: equal timestamps yield not-modified; one second later
does not. -/
theorem c8_not_modified_witness :
    should_return_not_modified (some 100) none (some 100) none = true
    ∧ should_return_not_modified (some 100) none (some 101) none = false :=
  ⟨c8_not_modified.1 100 100 none none (by decide),
   c8_not_modified.2 100 101 none none rfl rfl⟩

/-- C9: in every constructed `HttpContext`, `auth_info` is present exactly
when the `authorization` header field is, `should_cache` is false exactly
when `auth_info` is present and the client address is not loopback, and a
request without an `Authorization` header is always cacheable. -/
theorem c9_auth_and_cache (method : String) (uri : UriM) (hm : HeaderMapM)
    (addr : SocketAddrM) :
    ((from_request method uri hm addr).auth_info.isSome = true
      ↔ (from_request method uri hm addr).headers.authorization.isSome = true)
    ∧ ((from_request method uri hm addr).should_cache = false
      ↔ ((from_request method uri hm addr).auth_info.isSome = true
          ∧ isLoopback addr.ip = false))
    ∧ ((from_request method uri hm addr).headers.authorization = none →
      (from_request method uri hm addr).should_cache = true) := by
  cases hauth : (extract_headers hm).authorization with
  | none =>
    cases hloop : isLoopback addr.ip <;>
      simp [from_request, HttpContext.should_cache, HttpContext.has_authorization,
        extract_auth_info, extract_network_info, hauth, hloop]
  | some a =>
    cases hloop : isLoopback addr.ip <;>
      simp [from_request, HttpContext.should_cache, HttpContext.has_authorization,
        extract_auth_info, extract_network_info, hauth, hloop]

/-- Witness for C9: a request with no headers at all, from a non-loopback
address, is cacheable. -/
theorem c9_auth_and_cache_witness :
    (from_request "GET" ⟨"/", none⟩ [] ⟨IpAddrM.v4 10 0 0 1, 80⟩).should_cache
      = true :=
  (c9_auth_and_cache "GET" ⟨"/", none⟩ [] ⟨IpAddrM.v4 10 0 0 1, 80⟩).2.2
    (by decide)

end MitmProxy
